import Mathlib

/-!
Verification development for the JSON-Schema → TypeScript type compiler of
pokemon-behaviors (types/scripts: `loadSchemaContext`, `resolveSchema`,
`resolveRef`, `getByPointer`, `jsonTypeToTsType`, `renderObject`,
`wrapUnion`, `generateJSDoc`, `extractComponents`).

The embedding is shallow: JSON documents are an inductive `Json` value,
JavaScript string builtins used by the script (`split`, `replace`,
`startsWith`, `slice`) and Node's `path.posix` helpers (`dirname`, `join`,
`normalize`) are re-implemented with structural recursion so that every
definition evaluates inside the kernel, and exceptions thrown by
`readFileSync`/`JSON.parse` are an `Except String` layer. JavaScript
truthiness tests performed by the script are modelled field-by-field.
-/

namespace SchemaGen

/-- JSON values as parsed from schema documents. Numbers are modelled as
integers: the schema corpus and the claims only exercise integral numeric
literals, so float formatting stays outside the embedding. Object fields
keep document order, mirroring JavaScript key insertion order; objects
produced by `JSON.parse` have distinct keys. -/
inductive Json where
  | null : Json
  | bool : Bool → Json
  | num : Int → Json
  | str : String → Json
  | arr : List Json → Json
  | obj : List (String × Json) → Json

/-- The file system seen by the generator: logical relative path ↦ parsed
document. A path outside this map is a file `readFileSync` would fail on. -/
abbrev Files := List (String × Json)

/-- A schema node paired with the logical path of the document it was loaded
from (`SchemaContext` in the source). -/
structure SchemaContext where
  schema : Json
  path : String

/-- One exported component (`ComponentDefinition` in the source). -/
structure ComponentDefinition where
  name : String
  type : String
  description : Option String
  title : Option String

/-! ## String utilities (JavaScript / Node builtins used by the script) -/

/-- A single-quote character as a string. -/
def sq : String := String.singleton (Char.ofNat 39)

/-- Whether `p` is a leading sequence of `s` (character lists). -/
def leadsList : List Char → List Char → Bool
  | [], _ => true
  | _ :: _, [] => false
  | p :: ps, x :: xs => p = x && leadsList ps xs

/-- JavaScript `s.startsWith(p)`. -/
def strStarts (p s : String) : Bool := leadsList p.data s.data

/-- JavaScript `s.endsWith(p)`. -/
def strEnds (p s : String) : Bool := leadsList p.data.reverse s.data.reverse

/-- JavaScript `s.slice(n)` for a non-negative character index. -/
def strDrop (n : Nat) (s : String) : String := String.mk (s.data.drop n)

/-- Core of JavaScript `String.prototype.split` with a one-character
separator. -/
def splitOnCharAux (c : Char) : List Char → List Char → List String
  | [], acc => [String.mk acc.reverse]
  | x :: xs, acc =>
    if x = c then String.mk acc.reverse :: splitOnCharAux c xs []
    else splitOnCharAux c xs (x :: acc)

/-- JavaScript `s.split(c)` for a one-character separator: `""` splits to
`[""]`, and separators at the ends produce empty fragments, exactly as in
JavaScript. -/
def splitOnChar (c : Char) (s : String) : List String := splitOnCharAux c s.data []

/-- JavaScript `s.replace(/ab/g, r)` for a two-character pattern and a
one-character replacement: left-to-right, non-overlapping. -/
def replacePair (a b r : Char) : List Char → List Char
  | [] => []
  | [x] => [x]
  | x :: y :: xs =>
    if x = a ∧ y = b then r :: replacePair a b r xs
    else x :: replacePair a b r (y :: xs)

/-- JavaScript `s.replace(/abc/g, r)` for a three-character pattern and a
one-character replacement: left-to-right, non-overlapping. -/
def replaceTriple (a b c r : Char) : List Char → List Char
  | x :: y :: z :: xs =>
    if x = a ∧ y = b ∧ z = c then r :: replaceTriple a b c r xs
    else x :: replaceTriple a b c r (y :: z :: xs)
  | other => other

/-- JavaScript `Array.prototype.join(sep)`. -/
def joinSep (sep : String) : List String → String
  | [] => ""
  | [x] => x
  | x :: y :: xs => x ++ sep ++ joinSep sep (y :: xs)

/-- JavaScript `'  '.repeat(n)`, the indentation unit of the generator. -/
def indentOf (n : Nat) : String := String.join (List.replicate n "  ")

/-- Decimal digits of a natural number (fuel-driven; the fuel `n + 1` always
suffices for the number `n`). -/
def natDigits : Nat → Nat → List Char
  | 0, _ => []
  | fuel + 1, n =>
    if n < 10 then [Char.ofNat (48 + n)]
    else natDigits fuel (n / 10) ++ [Char.ofNat (48 + n % 10)]

/-- Decimal rendering of a natural number. -/
def natToStr (n : Nat) : String := String.mk (natDigits (n + 1) n)

/-- Decimal rendering of an integer, as JavaScript renders integral numbers. -/
def intToStr : Int → String
  | Int.ofNat n => natToStr n
  | Int.negSucc m => "-" ++ natToStr (m + 1)

/-- A hexadecimal digit (lowercase letters, as `JSON.stringify` escapes). -/
def hexDigit (n : Nat) : Char :=
  if n < 10 then Char.ofNat (48 + n) else Char.ofNat (87 + n)

/-- Four-digit hexadecimal rendering for `\uXXXX` escapes. -/
def hex4 (n : Nat) : String :=
  String.mk [hexDigit (n / 4096 % 16), hexDigit (n / 256 % 16),
             hexDigit (n / 16 % 16), hexDigit (n % 16)]

/-- How `JSON.stringify` escapes one character inside a string literal. -/
def escapeJsonChar (c : Char) : String :=
  if c = Char.ofNat 34 then "\\" ++ String.singleton (Char.ofNat 34)
  else if c = '\\' then "\\\\"
  else if c = '\n' then "\\n"
  else if c = '\t' then "\\t"
  else if c = '\r' then "\\r"
  else if c = Char.ofNat 8 then "\\b"
  else if c = Char.ofNat 12 then "\\f"
  else if c.toNat < 32 then "\\u" ++ hex4 c.toNat
  else String.singleton c

/-- `JSON.stringify` of a string value. -/
def jsonEscape (s : String) : String :=
  String.singleton (Char.ofNat 34)
    ++ String.join (s.data.map escapeJsonChar)
    ++ String.singleton (Char.ofNat 34)

mutual
/-- JavaScript `JSON.stringify(v)` (no spacing), used by the generator for
enum values, const values, defaults and examples. -/
def Json.stringify : Json → String
  | Json.null => "null"
  | Json.bool true => "true"
  | Json.bool false => "false"
  | Json.num n => intToStr n
  | Json.str s => jsonEscape s
  | Json.arr xs => "[" ++ joinSep "," (stringifyList xs) ++ "]"
  | Json.obj kvs => "\x7b" ++ joinSep "," (stringifyMembers kvs) ++ "\x7d"

/-- `JSON.stringify` of every element of an array. -/
def stringifyList : List Json → List String
  | [] => []
  | x :: xs => Json.stringify x :: stringifyList xs

/-- `JSON.stringify` of every member of an object. -/
def stringifyMembers : List (String × Json) → List String
  | [] => []
  | (k, v) :: rest => (jsonEscape k ++ ":" ++ Json.stringify v) :: stringifyMembers rest
end

/-! ## Node `path.posix` helpers used by `resolveRef` -/

/-- Segment normalisation of `path.posix.normalize`: drop empty and `.`
segments, let `..` pop the previous segment, keep leading `..` segments of a
relative path, and drop them at the root of an absolute one. The accumulator
holds the output segments in reverse. -/
def normSegs (isAbs : Bool) : List String → List String → List String
  | acc, [] => acc.reverse
  | acc, seg :: rest =>
    if seg = "" ∨ seg = "." then normSegs isAbs acc rest
    else if seg = ".." then
      match acc with
      | [] => if isAbs then normSegs isAbs [] rest else normSegs isAbs [".."] rest
      | top :: pre =>
        if top = ".." then normSegs isAbs (".." :: top :: pre) rest
        else normSegs isAbs pre rest
    else normSegs isAbs (seg :: acc) rest

/-- Node `path.posix.normalize`. -/
def posixNormalize (p : String) : String :=
  if p = "" then "."
  else
    let isAbs := strStarts "/" p
    let trailing := strEnds "/" p
    let body := joinSep "/" (normSegs isAbs [] (splitOnChar '/' p))
    if isAbs then
      if body = "" then "/" else "/" ++ body ++ (if trailing then "/" else "")
    else
      if body = "" then (if trailing then "./" else ".")
      else body ++ (if trailing then "/" else "")

/-- Node `path.posix.join` of two paths: concatenate the non-empty parts with
a slash and normalize; all-empty input yields `"."`. -/
def posixJoin (a b : String) : String :=
  let joined := if a = "" then b else if b = "" then a else a ++ "/" ++ b
  if joined = "" then "." else posixNormalize joined

/-- Scan of Node `path.posix.dirname`: walking indices downward (stopping
before index 0), skip trailing slashes, then report the index of the slash
that ends the directory part. -/
def dirnameEnd (cs : List Char) : Nat → Bool → Option Nat
  | 0, _ => none
  | i + 1, matched =>
    if cs.getD (i + 1) ' ' = '/' then
      if matched then dirnameEnd cs i matched else some (i + 1)
    else dirnameEnd cs i false

/-- Node `path.posix.dirname`. -/
def posixDirname (p : String) : String :=
  let cs := p.data
  if cs.isEmpty then "."
  else
    let hasRoot := strStarts "/" p
    match dirnameEnd cs (cs.length - 1) true with
    | none => if hasRoot then "/" else "."
    | some e => if hasRoot && e = 1 then "//" else String.mk (cs.take e)

/-! ## Field access and JavaScript truthiness

The script declares schema documents with the structural type `JsonSchema`
(`type`, `properties`, `items`, `oneOf`, `anyOf`, `allOf`, `enum`, `const`,
`$ref`, `additionalProperties`, `required`, documentation fields). Field
access is modelled as a keyed lookup that recognises exactly the declared
shape of each field — a document whose field has a different shape is
outside the `JsonSchema` data model. Where the script tests a field with
JavaScript truthiness (`if (schema.$ref)` …) the embedding repeats that
test explicitly. -/

/-- Property access `j[key]` on a parsed JSON value: only objects have
keyed properties; `JSON.parse` output has distinct keys. -/
def lookupField (j : Json) (key : String) : Option Json :=
  match j with
  | Json.obj kvs => (kvs.find? (fun kv => kv.1 == key)).map (fun kv => kv.2)
  | _ => none

/-- A string-typed field, as declared by `JsonSchema`. -/
def strField (j : Json) (key : String) : Option String :=
  match lookupField j key with
  | some (Json.str s) => some s
  | _ => none

/-- An array-typed field, as declared by `JsonSchema`. -/
def arrField (j : Json) (key : String) : Option (List Json) :=
  match lookupField j key with
  | some (Json.arr l) => some l
  | _ => none

/-- JavaScript truthiness of a JSON value. -/
def jsTruthy : Json → Bool
  | Json.null => false
  | Json.bool b => b
  | Json.num n => n != 0
  | Json.str s => s != ""
  | Json.arr _ => true
  | Json.obj _ => true

/-- Whether `typeof v === "object"` holds in JavaScript (objects, arrays
and `null`). -/
def jsTypeofObject : Json → Bool
  | Json.obj _ => true
  | Json.arr _ => true
  | Json.null => true
  | _ => false

/-- The `$ref` field as the script observes it: `if (schema.$ref)` is a
truthiness test, so an empty string does not count as a reference. -/
def refOf (j : Json) : Option String :=
  match strField j "$ref" with
  | some r => if r = "" then none else some r
  | none => none

/-- The branch list of `schema.oneOf ?? schema.anyOf` when
`if (schema.oneOf || schema.anyOf)` succeeds; an array is always truthy,
even when empty. -/
def unionOptionsOf (j : Json) : Option (List Json) :=
  match arrField j "oneOf" with
  | some l => some l
  | none => arrField j "anyOf"

/-- The `allOf` branch list. -/
def allOfOf (j : Json) : Option (List Json) := arrField j "allOf"

/-- The `enum` value list. -/
def enumOf (j : Json) : Option (List Json) := arrField j "enum"

/-- The `const` field; `schema.const !== undefined` is a presence test
(JSON values are never `undefined`), so any present value counts. -/
def constOf (j : Json) : Option Json := lookupField j "const"

/-- `schema.type` when `Array.isArray(schema.type)` holds. -/
def typeArrayOf (j : Json) : Option (List Json) := arrField j "type"

/-- Whether `schema.type === s` for a string literal `s`. -/
def typeIs (j : Json) (s : String) : Bool :=
  match strField j "type" with
  | some t => t == s
  | none => false

/-- `schema.items` filtered through the truthiness test of
`schema.type === 'array' && schema.items`. -/
def itemsOfTruthy (j : Json) : Option Json :=
  match lookupField j "items" with
  | some v => if jsTruthy v then some v else none
  | none => none

/-- Whether `schema.properties` is truthy. -/
def propsTruthy (j : Json) : Bool :=
  match lookupField j "properties" with
  | some v => jsTruthy v
  | none => false

/-- `Object.entries(schema.properties ?? {})`, in document order. -/
def propsOf (j : Json) : List (String × Json) :=
  match lookupField j "properties" with
  | some (Json.obj kvs) => kvs
  | _ => []

/-- The member list of `new Set(schema.required ?? [])`; only string
members can ever equal a property name under `Set.prototype.has`. -/
def requiredOf (j : Json) : List String :=
  match arrField j "required" with
  | some l =>
    l.filterMap (fun v =>
      match v with
      | Json.str s => some s
      | _ => none)
  | none => []

/-- The `additionalProperties` field. -/
def apOf (j : Json) : Option Json := lookupField j "additionalProperties"

/-- The `title` field. -/
def titleOf (j : Json) : Option String := strField j "title"

/-- The `description` field. -/
def descriptionOf (j : Json) : Option String := strField j "description"

/-- The `default` field (`!== undefined` is a presence test). -/
def defaultOf (j : Json) : Option Json := lookupField j "default"

/-- The `examples` field. -/
def examplesOf (j : Json) : Option (List Json) := arrField j "examples"

/-- `{ ...schema, type }` — the spread keeps every field in place and
overwrites the value at `"type"` (appending it when absent). -/
def setField (j : Json) (key : String) (v : Json) : Json :=
  match j with
  | Json.obj kvs =>
    if kvs.any (fun kv => kv.1 == key) then
      Json.obj (kvs.map (fun kv => if kv.1 == key then (key, v) else kv))
    else Json.obj (kvs ++ [(key, v)])
  | other => other

/-! ## Pointer Resolver (`getByPointer`) -/

/-- JSON Pointer unescaping applied to each segment by `getByPointer`:
`~1`→`/`, then `~0`→`~`, then the project-specific `%3A`→`:`. -/
def unescapeSegment (part : String) : String :=
  String.mk (replaceTriple '%' '3' 'A' ':'
    (replacePair '~' '0' '~' (replacePair '~' '1' '/' part.data)))

/-- One step of the traversal guard
`current && typeof current === 'object' && part in current`: a member is
found only in a non-null object (own key) or an array (canonical index, or
its `length` property). The found value may itself be `null`, which the
script cannot distinguish from absence at the end of the walk. -/
def jsGetMember : Json → String → Option Json
  | Json.obj kvs, k => (kvs.find? (fun kv => kv.1 == k)).map (fun kv => kv.2)
  | Json.arr xs, k =>
    if k = "length" then some (Json.num xs.length)
    else
      match k.toNat? with
      | some i => if natToStr i = k then xs[i]? else none
      | none => none
  | _, _ => none

/-- Whether a value can be traversed further
(`current && typeof current === 'object'`). -/
def traversable : Json → Bool
  | Json.obj _ => true
  | Json.arr _ => true
  | _ => false

/-- The script's return type `JsonSchema | null` conflates a found JSON
`null` with absence; this is the embedding of that return. -/
def nonNull : Json → Option Json
  | Json.null => none
  | j => some j

/-- The traversal loop of `getByPointer` over already-unescaped segments. -/
def goPointer : Json → List String → Option Json
  | cur, [] => nonNull cur
  | cur, p :: rest =>
    match jsGetMember cur p with
    | some nxt => goPointer nxt rest
    | none => none

/-- `getByPointer(schema, pointer)`: a pointer not of the form `#/...`
returns the root unchanged; otherwise the pointer body is split on `/`,
each segment unescaped, and the document walked until a segment is missing
or the current value is not traversable. Total by construction — it never
throws. -/
def getByPointer (schema : Json) (pointer : String) : Option Json :=
  if strStarts "#/" pointer then
    goPointer schema ((splitOnChar '/' (strDrop 2 pointer)).map unescapeSegment)
  else nonNull schema

/-! ## Schema Store and Reference Resolver -/

/-- `loadSchemaContext(relativePath)` with the file system made explicit: a
missing document is the `readFileSync` exception (`SchemaNotFound`). The
module-level cache is semantically transparent here because documents are
immutable within a run; `loadSchemaContextS` below models the cache state
itself. -/
def loadSchemaContext (files : Files) (relativePath : String) :
    Except String SchemaContext :=
  match (files.find? (fun kv => kv.1 == relativePath)).map (fun kv => kv.2) with
  | some s => Except.ok ⟨s, relativePath⟩
  | none => Except.error ("SchemaNotFound: " ++ relativePath)

/-- `loadSchemaContext` with the `schemaCache` state explicit: a cached
path is answered from the cache without touching the file system; a miss
reads and parses the document and appends it to the cache. -/
def loadSchemaContextS (files : Files) (cache : Files) (relativePath : String) :
    Except String (Files × SchemaContext) :=
  match (cache.find? (fun kv => kv.1 == relativePath)).map (fun kv => kv.2) with
  | some s => Except.ok (cache, ⟨s, relativePath⟩)
  | none =>
    match (files.find? (fun kv => kv.1 == relativePath)).map (fun kv => kv.2) with
    | some s => Except.ok (cache ++ [(relativePath, s)], ⟨s, relativePath⟩)
    | none => Except.error ("SchemaNotFound: " ++ relativePath)

/-- `ref.split('#', 2)[0]` — the path part of a cross-file reference. -/
def refPathOf (ref : String) : String := (splitOnChar '#' ref).headD ""

/-- `ref.split('#', 2)[1]` — the fragment part, when a `#` is present. -/
def fragOf (ref : String) : Option String := (splitOnChar '#' ref)[1]?

/-- `resolveRef(ref, context)`: a `#/...` reference is a same-document
pointer lookup; a bare `#...` returns the context unchanged; anything else
is split into path and fragment, the path resolved against the directory
of the context's own path and normalized, the target document loaded
(which throws `SchemaNotFound` when absent), and a `/`-fragment looked up
inside it. A `null` from `getByPointer` becomes `ok none`. -/
def resolveRef (files : Files) (ref : String) (context : SchemaContext) :
    Except String (Option SchemaContext) :=
  if strStarts "#/" ref then
    match getByPointer context.schema ref with
    | some target => Except.ok (some ⟨target, context.path⟩)
    | none => Except.ok none
  else if strStarts "#" ref then Except.ok (some context)
  else
    let refPath := refPathOf ref
    let fragment := fragOf ref
    let baseDir := posixDirname context.path
    let normalized := posixNormalize (posixJoin baseDir refPath)
    match loadSchemaContext files normalized with
    | Except.error e => Except.error e
    | Except.ok targetContext =>
      match fragment with
      | some f =>
        if f != "" && strStarts "/" f then
          match getByPointer targetContext.schema ("#" ++ f) with
          | some target => Except.ok (some ⟨target, normalized⟩)
          | none => Except.ok none
        else Except.ok (some targetContext)
      | none => Except.ok (some targetContext)

mutual
/-- Count of object nodes inside a value — each object node carries at most
one `$ref`, so this bounds the `$ref` occurrences reachable in it. -/
def countRefs : Json → Nat
  | Json.obj kvs => 1 + countRefsMembers kvs
  | Json.arr xs => countRefsList xs
  | _ => 0

/-- Count of object nodes inside the elements of an array. -/
def countRefsList : List Json → Nat
  | [] => 0
  | x :: xs => countRefs x + countRefsList xs

/-- Count of object nodes inside the members of an object. -/
def countRefsMembers : List (String × Json) → Nat
  | [] => 0
  | (_, v) :: rest => countRefs v + countRefsMembers rest
end

/-- `resolveSchema(schema, context, seen)` driven by explicit fuel. In the
script the recursion is bounded because each step inserts a fresh
`path::ref` key into `seen` and only finitely many such keys exist in the
reachable documents; the wrapper below supplies a fuel larger than that
key count, and the fuel-exhaustion branch repeats the cycle-break result. -/
def resolveSchemaF (files : Files) :
    Nat → Json → SchemaContext → List String → Except String SchemaContext
  | 0, schema, context, _ => Except.ok ⟨schema, context.path⟩
  | fuel + 1, schema, context, seen =>
    match refOf schema with
    | none => Except.ok ⟨schema, context.path⟩
    | some ref =>
      let key := context.path ++ "::" ++ ref
      if seen.contains key then Except.ok ⟨schema, context.path⟩
      else
        match resolveRef files ref context with
        | Except.error e => Except.error e
        | Except.ok none => Except.ok ⟨schema, context.path⟩
        | Except.ok (some target) =>
          resolveSchemaF files fuel target.schema target (key :: seen)

/-- A fuel that exceeds every possible number of distinct `path::ref`
keys: document paths come from the store (plus the starting context) and
ref strings from `$ref` occurrences in the reachable values. -/
def resolveFuel (files : Files) (schema : Json) (context : SchemaContext) : Nat :=
  (files.length + 1)
    * (countRefsMembers files + countRefs schema + countRefs context.schema + 1)
  + 1

/-- `resolveSchema(schema, context, seen = new Set())`. -/
def resolveSchema (files : Files) (schema : Json) (context : SchemaContext)
    (seen : List String := []) : Except String SchemaContext :=
  resolveSchemaF files (resolveFuel files schema context) schema context seen

/-! ## Type Synthesizer (`jsonTypeToTsType`, `renderObject`, `wrapUnion`) -/

/-- `[...new Set(acc already built)]` insertion: JavaScript `Set` keeps the
first occurrence of each element, in insertion order. -/
def addUnique (acc : List String) (x : String) : List String :=
  if acc.contains x then acc else acc ++ [x]

/-- `[...new Set(l)]`: de-duplication keeping first occurrences in order. -/
def dedupKeepFirst (l : List String) : List String := l.foldl addUnique []

/-- `wrapUnion(types)`: drop empty strings (`filter(Boolean)`),
de-duplicate by exact text equality, return `"unknown"` for an empty
result, a single survivor unwrapped, and otherwise a `|`-join. -/
def wrapUnion (types : List String) : String :=
  match dedupKeepFirst (types.filter (fun t => t ≠ "")) with
  | [] => "unknown"
  | [t] => t
  | l => joinSep " | " l

/-- The literal type text for an `enum` member or `const` value: strings
are single-quoted verbatim, any other value is its `JSON.stringify` form. -/
def literalText : Json → String
  | Json.str s => sq ++ s ++ sq
  | v => Json.stringify v

/-- The test of `/^[A-Za-z_$][A-Za-z0-9_$]*$/` deciding whether a property
key can appear unquoted. -/
def isIdentKey (k : String) : Bool :=
  match k.data with
  | [] => false
  | c :: rest =>
    (c.isAlpha || c = '_' || c = '$')
      && rest.all (fun d => d.isAlphanum || d = '_' || d = '$')

/-- A property key, quoted when it is not a plain identifier. -/
def safeKey (k : String) : String :=
  if isIdentKey k then k else sq ++ k ++ sq

/-- One rendered property line of `renderObject`: indentation, the key,
the optional marker (absent exactly when the key is in `required`), and
the synthesized type. -/
def propLine (depth : Nat) (required : List String) (key ty : String) : String :=
  indentOf depth ++ safeKey key
    ++ (if required.contains key then "" else "?")
    ++ ": " ++ ty ++ ";"

/-- `generateJSDoc(schema, depth)`: a JSDoc block when any of title,
description, default or a first example is present (title suppressed when
equal to the description), otherwise the empty string. -/
def generateJSDoc (schema : Json) (depth : Nat) : String :=
  let title := titleOf schema
  let desc := descriptionOf schema
  let dflt := defaultOf schema
  let exs := examplesOf schema
  let titleTruthy := match title with | some s => s != "" | none => false
  let descTruthy := match desc with | some s => s != "" | none => false
  let exTruthy := match exs with | some l => !l.isEmpty | none => false
  if titleTruthy || descTruthy || dflt.isSome || exTruthy then
    let ind := indentOf depth
    joinSep "\n"
      ([ind ++ "/**"]
        ++ (match title, desc with
            | some t, some d => if t != "" && t != d then [ind ++ " * " ++ t] else []
            | some t, none => if t != "" then [ind ++ " * " ++ t] else []
            | none, _ => [])
        ++ (match desc with
            | some d =>
              if d != "" then
                (splitOnChar '\n' d).map (fun line => ind ++ " * " ++ line)
              else []
            | none => [])
        ++ (match dflt with
            | some v => [ind ++ " * @default " ++ Json.stringify v]
            | none => [])
        ++ (match exs with
            | some (e :: _) => [ind ++ " * @example " ++ Json.stringify e]
            | _ => [])
        ++ [ind ++ " */"])
  else ""

/-- `Array.prototype.map` with exception propagation: elements are
evaluated left to right and the first thrown error aborts the map, as a
JavaScript `.map` whose callback throws. -/
def mapE (f : α → Except String β) : List α → Except String (List β)
  | [] => Except.ok []
  | x :: xs =>
    match f x with
    | Except.error e => Except.error e
    | Except.ok y =>
      match mapE f xs with
      | Except.error e => Except.error e
      | Except.ok ys => Except.ok (y :: ys)

/-- The property loop of `renderObject`, abstracted over the recursive
synthesis call `rec` (which the script makes at `depth + 1` in the same
context): per property, an optional JSDoc line followed by the field line. -/
def renderPropsWith (rec : Json → Nat → Except String String)
    (required : List String) (depth : Nat) :
    List (String × Json) → Except String (List String)
  | [] => Except.ok []
  | (key, value) :: rest =>
    match rec value (depth + 1) with
    | Except.error e => Except.error e
    | Except.ok ty =>
      match renderPropsWith rec required depth rest with
      | Except.error e => Except.error e
      | Except.ok tail =>
        let doc := generateJSDoc value depth
        Except.ok ((if doc = "" then [] else [doc])
          ++ [propLine depth required key ty] ++ tail)

/-- `renderObject(schema, context, depth)` abstracted over the recursive
synthesis call `rec` (the script's `jsonTypeToTsType(·, context, ·)`):
braces around the property lines, then an index signature when
`additionalProperties` is `true` or is itself a schema
(`typeof === 'object'`). -/
def renderObjectWith (rec : Json → Nat → Except String String)
    (schema : Json) (depth : Nat) : Except String String :=
  match renderPropsWith rec (requiredOf schema) depth (propsOf schema) with
  | Except.error e => Except.error e
  | Except.ok fieldLines =>
    match apOf schema with
    | some (Json.bool true) =>
      Except.ok (joinSep "\n"
        (["\x7b"] ++ fieldLines ++ [indentOf depth ++ "[key: string]: unknown;"]
          ++ [indentOf (depth - 1) ++ "\x7d"]))
    | some ap =>
      if jsTypeofObject ap then
        match rec ap (depth + 1) with
        | Except.error e => Except.error e
        | Except.ok additional =>
          Except.ok (joinSep "\n"
            (["\x7b"] ++ fieldLines
              ++ [indentOf depth ++ "[key: string]: " ++ additional ++ ";"]
              ++ [indentOf (depth - 1) ++ "\x7d"]))
      else
        Except.ok (joinSep "\n"
          (["\x7b"] ++ fieldLines ++ [indentOf (depth - 1) ++ "\x7d"]))
    | none =>
      Except.ok (joinSep "\n"
        (["\x7b"] ++ fieldLines ++ [indentOf (depth - 1) ++ "\x7d"]))

/-- Fuel-indexed worker for `jsonTypeToTsType(schema, context, depth)`.
The script's recursion is bounded by the `depth > 20` guard (every
recursive call passes `depth + 1`); the fuel makes that bound structural:
the public wrapper passes `22 - depth`, so the fuel reaches `0` only at
depths where the guard returns `"unknown"` anyway, and the `0` case
returns exactly that. Branch order follows the script. -/
def jsonT (files : Files) :
    Nat → Json → SchemaContext → Nat → Except String String
  | 0, _, _, _ => Except.ok "unknown"
  | fuel + 1, schema, context, depth =>
    if depth > 20 then Except.ok "unknown"
    else
      match refOf schema with
      | some ref =>
        (match resolveRef files ref context with
         | Except.error e => Except.error e
         | Except.ok (some target) => jsonT files fuel target.schema target (depth + 1)
         | Except.ok none => Except.ok "unknown")
      | none =>
      match unionOptionsOf schema with
      | some options =>
        (match mapE (fun option => jsonT files fuel option context (depth + 1)) options with
         | Except.error e => Except.error e
         | Except.ok raw => Except.ok (wrapUnion (raw.filter (fun t => t ≠ ""))))
      | none =>
      match allOfOf schema with
      | some branches =>
        (match mapE (fun option => jsonT files fuel option context (depth + 1)) branches with
         | Except.error e => Except.error e
         | Except.ok types =>
           Except.ok (if types.length ≠ 0 then joinSep " & " types else "unknown"))
      | none =>
      match enumOf schema with
      | some values => Except.ok (wrapUnion (values.map literalText))
      | none =>
      match constOf schema with
      | some v => Except.ok (literalText v)
      | none =>
      match typeArrayOf schema with
      | some ts =>
        (match mapE (fun t => jsonT files fuel (setField schema "type" t) context (depth + 1)) ts with
         | Except.error e => Except.error e
         | Except.ok types => Except.ok (wrapUnion types))
      | none =>
      if typeIs schema "array" && (itemsOfTruthy schema).isSome then
        match itemsOfTruthy schema with
        | some (Json.arr items) =>
          (match mapE (fun item => jsonT files fuel item context (depth + 1)) items with
           | Except.error e => Except.error e
           | Except.ok tuple => Except.ok ("[" ++ joinSep ", " tuple ++ "]"))
        | some item =>
          (match jsonT files fuel item context (depth + 1) with
           | Except.error e => Except.error e
           | Except.ok itemType => Except.ok ("(" ++ itemType ++ ")[]"))
        | none => Except.ok "unknown"
      else if typeIs schema "object" || propsTruthy schema then
        renderObjectWith (fun v d => jsonT files fuel v context d) schema (depth + 1)
      else
        match strField schema "type" with
        | some "string" => Except.ok "string"
        | some "number" => Except.ok "number"
        | some "integer" => Except.ok "number"
        | some "boolean" => Except.ok "boolean"
        | some "null" => Except.ok "null"
        | some "array" => Except.ok "unknown[]"
        | some "object" => Except.ok "Record<string, unknown>"
        | _ => Except.ok "unknown"

/-- `jsonTypeToTsType(schema, context, depth = 0)`. The fuel `22 - depth`
never runs out before the `depth > 20` guard fires, so the worker follows
the script's recursion exactly; `jsonTypeToTsType_unfold` below proves the
script's defining equation for this wrapper. -/
def jsonTypeToTsType (files : Files) (schema : Json) (context : SchemaContext)
    (depth : Nat := 0) : Except String String :=
  jsonT files (22 - depth) schema context depth

/-- One unfolding of the script's `jsonTypeToTsType` body, with the
recursive call abstracted as `rec`. `jsonT files (fuel + 1)` is by
definition `jsonTStep` applied to `jsonT files fuel`, and
`jsonTypeToTsType_unfold` shows the public wrapper is a fixed point of
this functional — the script's recursion equation verbatim. -/
def jsonTStep (rec : Json → SchemaContext → Nat → Except String String)
    (files : Files) (schema : Json) (context : SchemaContext) (depth : Nat) :
    Except String String :=
  if depth > 20 then Except.ok "unknown"
  else
    match refOf schema with
    | some ref =>
      (match resolveRef files ref context with
       | Except.error e => Except.error e
       | Except.ok (some target) => rec target.schema target (depth + 1)
       | Except.ok none => Except.ok "unknown")
    | none =>
    match unionOptionsOf schema with
    | some options =>
      (match mapE (fun option => rec option context (depth + 1)) options with
       | Except.error e => Except.error e
       | Except.ok raw => Except.ok (wrapUnion (raw.filter (fun t => t ≠ ""))))
    | none =>
    match allOfOf schema with
    | some branches =>
      (match mapE (fun option => rec option context (depth + 1)) branches with
       | Except.error e => Except.error e
       | Except.ok types =>
         Except.ok (if types.length ≠ 0 then joinSep " & " types else "unknown"))
    | none =>
    match enumOf schema with
    | some values => Except.ok (wrapUnion (values.map literalText))
    | none =>
    match constOf schema with
    | some v => Except.ok (literalText v)
    | none =>
    match typeArrayOf schema with
    | some ts =>
      (match mapE (fun t => rec (setField schema "type" t) context (depth + 1)) ts with
       | Except.error e => Except.error e
       | Except.ok types => Except.ok (wrapUnion types))
    | none =>
    if typeIs schema "array" && (itemsOfTruthy schema).isSome then
      match itemsOfTruthy schema with
      | some (Json.arr items) =>
        (match mapE (fun item => rec item context (depth + 1)) items with
         | Except.error e => Except.error e
         | Except.ok tuple => Except.ok ("[" ++ joinSep ", " tuple ++ "]"))
      | some item =>
        (match rec item context (depth + 1) with
         | Except.error e => Except.error e
         | Except.ok itemType => Except.ok ("(" ++ itemType ++ ")[]"))
      | none => Except.ok "unknown"
    else if typeIs schema "object" || propsTruthy schema then
      renderObjectWith (fun v d => rec v context d) schema (depth + 1)
    else
      match strField schema "type" with
      | some "string" => Except.ok "string"
      | some "number" => Except.ok "number"
      | some "integer" => Except.ok "number"
      | some "boolean" => Except.ok "boolean"
      | some "null" => Except.ok "null"
      | some "array" => Except.ok "unknown[]"
      | some "object" => Except.ok "Record<string, unknown>"
      | _ => Except.ok "unknown"

/-- `renderObject(schema, context, depth)` with the script's recursive
call realised by the public synthesizer. -/
def renderObject (files : Files) (schema : Json) (context : SchemaContext)
    (depth : Nat) : Except String String :=
  renderObjectWith (fun v d => jsonTypeToTsType files v context d) schema depth

/-- `extractComponents(context)`: for each top-level property of the root
schema, eagerly resolve its reference chain, synthesize its type at depth
0, and take description/title from the resolved node, falling back to the
property's own node (`??` acts on absence only). -/
def extractComponents (files : Files) (context : SchemaContext) :
    Except String (List ComponentDefinition) :=
  mapE (fun nv =>
    match resolveSchema files nv.2 context [] with
    | Except.error e => Except.error e
    | Except.ok resolved =>
      match jsonTypeToTsType files resolved.schema resolved 0 with
      | Except.error e => Except.error e
      | Except.ok typeString =>
        Except.ok ⟨nv.1, typeString,
          (descriptionOf resolved.schema).orElse (fun _ => descriptionOf nv.2),
          (titleOf resolved.schema).orElse (fun _ => titleOf nv.2)⟩)
    (propsOf context.schema)

/-! ## Concrete fixtures used by the theorems -/

/-- The object schema of spec scenario A:
`{type:"object", properties:{hp:{type:"integer"}}, required:["hp"]}`. -/
def scenarioA : Json := Json.obj
  [("type", Json.str "object"),
   ("properties", Json.obj [("hp", Json.obj [("type", Json.str "integer")])]),
   ("required", Json.arr [Json.str "hp"])]

/-- A document with a direct `$ref` cycle `A -> B -> A` (spec scenario D). -/
def cycleDoc : Json := Json.obj
  [("definitions", Json.obj
    [("A", Json.obj [("$ref", Json.str "#/definitions/B")]),
     ("B", Json.obj [("$ref", Json.str "#/definitions/A")])])]

/-- The node `A` of the cycle document. -/
def cycleNodeA : Json := Json.obj [("$ref", Json.str "#/definitions/B")]

/-- A node whose `$ref` names a neighbouring document that does not exist. -/
def missingRefNode : Json := Json.obj [("$ref", Json.str "../missing.json")]

/-- A node with an intra-document `$ref` whose pointer target is absent. -/
def badPtrNode : Json := Json.obj [("$ref", Json.str "#/definitions/missing")]

/-- The union schema of spec scenario B:
`{oneOf:[{const:"a"},{const:"a"},{const:"b"}]}`. -/
def oneOfExample : Json := Json.obj
  [("oneOf", Json.arr
    [Json.obj [("const", Json.str "a")],
     Json.obj [("const", Json.str "a")],
     Json.obj [("const", Json.str "b")]])]

/-- An object schema used as a `$ref` target. -/
def targetT : Json := Json.obj
  [("type", Json.str "object"),
   ("properties", Json.obj [("a", Json.obj [("type", Json.str "string")])])]

/-- A document holding `targetT` under `definitions.T`. -/
def docT : Json := Json.obj [("definitions", Json.obj [("T", targetT)])]

/-- The node `{$ref: "#/definitions/T"}` — a resolvable, acyclic reference. -/
def refNodeT : Json := Json.obj [("$ref", Json.str "#/definitions/T")]

/-- The shared definition targeted by spec scenario E. -/
def exBase : Json := Json.obj [("type", Json.str "string")]

/-- The shared definitions document of spec scenario E. -/
def exCommon : Json := Json.obj [("definitions", Json.obj [("Base", exBase)])]

/-- A store holding the shared document at `source/a/common.json`. -/
def exFiles : Files := [("source/a/common.json", exCommon)]

/-- A root schema with one unresolvable-pointer component and one plain
component, exercising continuation after a degraded reference. -/
def contRoot : Json := Json.obj
  [("properties", Json.obj
    [("comp.a", badPtrNode),
     ("comp.b", Json.obj [("type", Json.str "string")])])]

/-- A root schema whose first component references an absent neighbouring
document. -/
def contRootBad : Json := Json.obj
  [("properties", Json.obj
    [("comp.a", missingRefNode),
     ("comp.b", Json.obj [("type", Json.str "string")])])]

/-! ## Helper lemmas -/

theorem strData_append (a b : String) : (a ++ b).data = a.data ++ b.data := rfl

theorem strNeEmpty_iff (s : String) : s ≠ "" ↔ s.data ≠ [] := by
  cases s with
  | mk d =>
    constructor
    · intro h hd
      subst hd
      exact h rfl
    · intro h he
      exact h (congrArg String.data he)

theorem append_ne_empty_left (a b : String) (h : a ≠ "") : a ++ b ≠ "" := by
  rw [strNeEmpty_iff] at h ⊢
  rw [strData_append]
  intro hc
  exact h (List.append_eq_nil.mp hc).1

theorem append_ne_empty_right (a b : String) (h : b ≠ "") : a ++ b ≠ "" := by
  rw [strNeEmpty_iff] at h ⊢
  rw [strData_append]
  intro hc
  exact h (List.append_eq_nil.mp hc).2

theorem joinSep_cons_ne_empty (sep x : String) (xs : List String) (h : x ≠ "") :
    joinSep sep (x :: xs) ≠ "" := by
  cases xs with
  | nil => simpa [joinSep] using h
  | cons y ys =>
    show x ++ sep ++ joinSep sep (y :: ys) ≠ ""
    exact append_ne_empty_left _ _ (append_ne_empty_left _ _ h)

theorem natDigits_ne_nil (fuel n : Nat) : natDigits (fuel + 1) n ≠ [] := by
  unfold natDigits
  split
  · simp
  · simp

theorem natToStr_ne_empty (n : Nat) : natToStr n ≠ "" := by
  rw [strNeEmpty_iff]
  exact natDigits_ne_nil n n

theorem singleton_ne_empty (c : Char) : String.singleton c ≠ "" := by
  rw [strNeEmpty_iff]
  simp [String.singleton]

theorem stringify_ne_empty (v : Json) : Json.stringify v ≠ "" := by
  cases v with
  | null => decide
  | bool b => cases b <;> decide
  | num n =>
    cases n with
    | ofNat m => exact natToStr_ne_empty m
    | negSucc m => exact append_ne_empty_left _ _ (by decide)
  | str s => exact append_ne_empty_left _ _ (append_ne_empty_left _ _ (singleton_ne_empty _))
  | arr xs => exact append_ne_empty_left _ _ (append_ne_empty_left _ _ (by decide))
  | obj kvs => exact append_ne_empty_left _ _ (append_ne_empty_left _ _ (by decide))

theorem literalText_ne_empty (v : Json) : literalText v ≠ "" := by
  cases v with
  | str s =>
    exact append_ne_empty_left _ _ (append_ne_empty_left _ _ (by decide))
  | null => exact stringify_ne_empty Json.null
  | bool b => exact stringify_ne_empty (Json.bool b)
  | num n => exact stringify_ne_empty (Json.num n)
  | arr xs => exact stringify_ne_empty (Json.arr xs)
  | obj kvs => exact stringify_ne_empty (Json.obj kvs)

theorem mem_addUnique_of_mem {acc : List String} {x : String} (y : String)
    (h : x ∈ acc) : x ∈ addUnique acc y := by
  unfold addUnique
  split
  · exact h
  · exact List.mem_append_left _ h

theorem mem_addUnique_self (acc : List String) (y : String) : y ∈ addUnique acc y := by
  unfold addUnique
  split
  · next hc => exact List.mem_of_elem_eq_true hc
  · exact List.mem_append_right _ (List.mem_singleton.mpr rfl)

theorem of_mem_addUnique {acc : List String} {x y : String}
    (h : x ∈ addUnique acc y) : x ∈ acc ∨ x = y := by
  unfold addUnique at h
  split at h
  · exact Or.inl h
  · rcases List.mem_append.mp h with h1 | h2
    · exact Or.inl h1
    · exact Or.inr (List.mem_singleton.mp h2)

theorem addUnique_mem_noop {acc : List String} {x : String} (h : x ∈ acc) :
    addUnique acc x = acc := by
  unfold addUnique
  rw [if_pos (List.elem_eq_true_of_mem h)]

theorem mem_foldl_addUnique :
    ∀ (l acc : List String) (x : String), x ∈ acc ∨ x ∈ l →
      x ∈ l.foldl addUnique acc := by
  intro l
  induction l with
  | nil =>
    intro acc x h
    rcases h with h | h
    · exact h
    · exact absurd h (List.not_mem_nil x)
  | cons a l ih =>
    intro acc x h
    rw [List.foldl_cons]
    rcases h with h | h
    · exact ih _ _ (Or.inl (mem_addUnique_of_mem a h))
    · rcases List.mem_cons.mp h with h | h
      · exact ih _ _ (Or.inl (h ▸ mem_addUnique_self acc a))
      · exact ih _ _ (Or.inr h)

theorem of_mem_foldl_addUnique :
    ∀ (l acc : List String) (x : String), x ∈ l.foldl addUnique acc →
      x ∈ acc ∨ x ∈ l := by
  intro l
  induction l with
  | nil =>
    intro acc x h
    exact Or.inl h
  | cons a l ih =>
    intro acc x h
    rw [List.foldl_cons] at h
    rcases ih _ _ h with h | h
    · rcases of_mem_addUnique h with h | h
      · exact Or.inl h
      · exact Or.inr (List.mem_cons.mpr (Or.inl h))
    · exact Or.inr (List.mem_cons.mpr (Or.inr h))

theorem mem_of_mem_dedupKeepFirst {l : List String} {x : String}
    (h : x ∈ dedupKeepFirst l) : x ∈ l := by
  rcases of_mem_foldl_addUnique l [] x h with h | h
  · exact absurd h (List.not_mem_nil x)
  · exact h

theorem dedupKeepFirst_append_mem (l : List String) (t : String) (h : t ∈ l) :
    dedupKeepFirst (l ++ [t]) = dedupKeepFirst l := by
  unfold dedupKeepFirst
  rw [List.foldl_append, List.foldl_cons, List.foldl_nil]
  exact addUnique_mem_noop (mem_foldl_addUnique l [] t (Or.inr h))

theorem wrapUnion_ne_empty (ts : List String) : wrapUnion ts ≠ "" := by
  unfold wrapUnion
  cases hd : dedupKeepFirst (ts.filter (fun s => s ≠ "")) with
  | nil => decide
  | cons t rest =>
    cases rest with
    | nil =>
      have ht : t ∈ dedupKeepFirst (ts.filter (fun s => s ≠ "")) := by
        rw [hd]
        exact List.mem_singleton.mpr rfl
      have hmem := List.mem_filter.mp (mem_of_mem_dedupKeepFirst ht)
      show t ≠ ""
      exact of_decide_eq_true hmem.2
    | cons u rest2 =>
      show t ++ " | " ++ joinSep " | " (u :: rest2) ≠ ""
      exact append_ne_empty_left _ _ (append_ne_empty_right _ _ (by decide))

theorem jsonT_succ_eq (files : Files) (fuel : Nat) (schema : Json)
    (context : SchemaContext) (depth : Nat) :
    jsonT files (fuel + 1) schema context depth
      = jsonTStep (fun v c' d' => jsonT files fuel v c' d') files schema context depth := rfl

theorem mapE_congr {α β : Type} (f g : α → Except String β) (l : List α)
    (h : ∀ x ∈ l, f x = g x) : mapE f l = mapE g l := by
  induction l with
  | nil => rfl
  | cons a rest ih =>
    simp only [mapE]
    rw [h a (List.mem_cons.mpr (Or.inl rfl)),
        ih (fun x hx => h x (List.mem_cons.mpr (Or.inr hx)))]

theorem renderPropsWith_congr (rec1 rec2 : Json → Nat → Except String String)
    (required : List String) (depth : Nat)
    (h : ∀ v : Json, rec1 v (depth + 1) = rec2 v (depth + 1)) :
    ∀ l, renderPropsWith rec1 required depth l = renderPropsWith rec2 required depth l := by
  intro l
  induction l with
  | nil => rfl
  | cons kv rest ih =>
    obtain ⟨key, value⟩ := kv
    simp only [renderPropsWith]
    rw [h value, ih]

theorem renderObjectWith_congr (rec1 rec2 : Json → Nat → Except String String)
    (schema : Json) (depth : Nat)
    (h : ∀ v : Json, rec1 v (depth + 1) = rec2 v (depth + 1)) :
    renderObjectWith rec1 schema depth = renderObjectWith rec2 schema depth := by
  unfold renderObjectWith
  rw [renderPropsWith_congr rec1 rec2 _ _ h]
  simp only [h]

theorem jsonTStep_congr (rec1 rec2 : Json → SchemaContext → Nat → Except String String)
    (files : Files) (schema : Json) (context : SchemaContext) (depth : Nat)
    (hrec : ∀ (v : Json) (c' : SchemaContext) (d' : Nat),
      depth + 1 ≤ d' → rec1 v c' d' = rec2 v c' d') :
    jsonTStep rec1 files schema context depth
      = jsonTStep rec2 files schema context depth := by
  have h' : ∀ (v : Json) (c' : SchemaContext),
      rec1 v c' (depth + 1) = rec2 v c' (depth + 1) :=
    fun v c' => hrec v c' (depth + 1) (Nat.le_refl _)
  have h2 : ∀ v : Json,
      (fun v d => rec1 v context d) v (depth + 1 + 1)
        = (fun v d => rec2 v context d) v (depth + 1 + 1) :=
    fun v => hrec v context (depth + 1 + 1) (by omega)
  unfold jsonTStep
  rw [renderObjectWith_congr (fun v d => rec1 v context d)
        (fun v d => rec2 v context d) schema (depth + 1) h2]
  simp only [h']

/-- Above the reach of the `depth > 20` guard the fuel of `jsonT` is
unobservable: any two fuels at least `21 - depth` produce the same
result, so the wrapper's `22 - depth` is one safe choice among many. -/
theorem jsonT_fuel_agree :
    ∀ (f g : Nat) (files : Files) (s : Json) (c : SchemaContext) (d : Nat),
      21 - d ≤ f → 21 - d ≤ g → jsonT files f s c d = jsonT files g s c d := by
  intro f
  induction f with
  | zero =>
    intro g files s c d hf _
    have hd : d > 20 := by omega
    cases g with
    | zero => rfl
    | succ g' =>
      rw [jsonT_succ_eq]
      unfold jsonTStep
      rw [if_pos hd]
      rfl
  | succ f' ih =>
    intro g files s c d hf hg
    by_cases hd : d > 20
    · rw [jsonT_succ_eq]
      unfold jsonTStep
      rw [if_pos hd]
      cases g with
      | zero => rfl
      | succ g' =>
        rw [jsonT_succ_eq]
        unfold jsonTStep
        rw [if_pos hd]
    · obtain ⟨g', rfl⟩ : ∃ g'', g = g'' + 1 := ⟨g - 1, by omega⟩
      rw [jsonT_succ_eq, jsonT_succ_eq]
      apply jsonTStep_congr
      intro v c' d' hd'
      exact ih g' files v c' d' (by omega) (by omega)

/-- The public synthesizer satisfies the script's recursion equation: one
step of `jsonTypeToTsType` is `jsonTStep` applied to `jsonTypeToTsType`
itself (whose object branch is, by definition, `renderObject`). -/
theorem jsonTypeToTsType_unfold (files : Files) (s : Json) (c : SchemaContext)
    (d : Nat) :
    jsonTypeToTsType files s c d
      = jsonTStep (fun v c' d' => jsonTypeToTsType files v c' d') files s c d := by
  unfold jsonTypeToTsType
  by_cases hd : d ≥ 22
  · have h0 : 22 - d = 0 := by omega
    rw [h0]
    show Except.ok "unknown" = _
    unfold jsonTStep
    rw [if_pos (by omega : d > 20)]
  · have h1 : 22 - d = (21 - d) + 1 := by omega
    rw [h1, jsonT_succ_eq]
    apply jsonTStep_congr
    intro v c' d' hd'
    exact jsonT_fuel_agree (21 - d) (22 - d') files v c' d' (by omega) (by omega)

/-! ## Claim theorems -/

/-- C2: `jsonTypeToTsType` terminates for every node, context and depth
(the Lean function is total by construction), whenever `depth` exceeds 20
it returns `"unknown"` regardless of the node's shape, and the direct
`$ref` cycle `A -> B -> A` synthesizes to `"unknown"` without exceeding
the recursion bound. -/
theorem jsonTypeToTsType_depth_guard_and_cycle :
    (∀ (files : Files) (schema : Json) (context : SchemaContext) (depth : Nat),
      depth > 20 → jsonTypeToTsType files schema context depth = Except.ok "unknown")
    ∧ jsonTypeToTsType [("cycle.json", cycleDoc)] cycleNodeA ⟨cycleDoc, "cycle.json"⟩ 0
        = Except.ok "unknown" := by
  constructor
  · intro files schema context depth hd
    unfold jsonTypeToTsType
    cases h : 22 - depth with
    | zero => rfl
    | succ f => simp [jsonT, hd]
  · rfl

/-- Witness for C2 at the concrete depth 21. -/
theorem jsonTypeToTsType_depth_guard_witness :
    jsonTypeToTsType [] Json.null ⟨Json.null, "w.json"⟩ 21 = Except.ok "unknown" :=
  jsonTypeToTsType_depth_guard_and_cycle.1 [] Json.null ⟨Json.null, "w.json"⟩ 21
    (by decide)

/-- C7: when the `path::ref` key of the node being resolved is already in
the visited set of the current resolution call, `resolveSchema` stops
recursing and returns the still-unresolved `$ref`-bearing node as-is, with
an `ok` outcome (no error is raised). -/
theorem resolveSchema_cycle_break :
    ∀ (files : Files) (schema : Json) (context : SchemaContext)
      (seen : List String) (ref : String),
      refOf schema = some ref →
      seen.contains (context.path ++ "::" ++ ref) = true →
      resolveSchema files schema context seen
        = Except.ok ⟨schema, context.path⟩ := by
  intro files schema context seen ref h1 h2
  unfold resolveSchema resolveFuel
  simp only [resolveSchemaF, h1, h2, if_true]

/-- Witness for C7: a revisited key stops the chain on a concrete input. -/
theorem resolveSchema_cycle_break_witness :
    resolveSchema [] cycleNodeA ⟨cycleDoc, "cycle.json"⟩
        ["cycle.json::#/definitions/B"]
      = Except.ok ⟨cycleNodeA, "cycle.json"⟩ :=
  resolveSchema_cycle_break [] cycleNodeA ⟨cycleDoc, "cycle.json"⟩
    ["cycle.json::#/definitions/B"] "#/definitions/B" rfl rfl

/-- C8: `getByPointer` is total (the Lean function returns an `Option`
and never fails by construction), and the traversal returns absent as soon
as a segment is missing from the current value — in particular whenever
the current value is not a traversable structure, every member lookup on
it is absent. -/
theorem getByPointer_early_absence :
    (∀ (cur : Json) (p : String) (rest : List String),
        jsGetMember cur p = none → goPointer cur (p :: rest) = none)
    ∧ (∀ (cur : Json) (p : String),
        traversable cur = false → jsGetMember cur p = none) := by
  constructor
  · intro cur p rest h
    simp [goPointer, h]
  · intro cur p h
    cases cur <;> simp_all [traversable, jsGetMember]

/-- Witness for C8: a non-traversable value stops the walk at once. -/
theorem getByPointer_early_absence_witness :
    jsGetMember (Json.str "x") "a" = none
      ∧ goPointer (Json.str "x") ["a", "b"] = none :=
  ⟨getByPointer_early_absence.2 (Json.str "x") "a" rfl,
   getByPointer_early_absence.1 (Json.str "x") "a" ["b"]
     (getByPointer_early_absence.2 (Json.str "x") "a" rfl)⟩

/-- C9: a pointer equal to `#`, or any pointer not starting with `#/`,
returns the root node unchanged (through the script's `JsonSchema | null`
return, embedded by `nonNull`, a JSON `null` root is the one value
indistinguishable from absence); and each path segment is unescaped by
`~1`→`/`, `~0`→`~`, `%3A`→`:` before lookup, so an escaped pointer finds
exactly the key holding those characters. -/
theorem getByPointer_root_rule_and_unescape :
    (∀ (root : Json) (ptr : String), strStarts "#/" ptr = false →
        getByPointer root ptr = nonNull root)
    ∧ (∀ root : Json, root ≠ Json.null → getByPointer root "#" = some root)
    ∧ (unescapeSegment "~1" = "/" ∧ unescapeSegment "~0" = "~"
        ∧ unescapeSegment "%3A" = ":")
    ∧ (∀ v : Json, v ≠ Json.null →
        getByPointer (Json.obj [("a/b~x:y", v)]) "#/a~1b~0x%3Ay" = some v) := by
  refine ⟨?_, ?_, ⟨rfl, rfl, rfl⟩, ?_⟩
  · intro root ptr h
    simp [getByPointer, h]
  · intro root h
    have : getByPointer root "#" = nonNull root := rfl
    rw [this]
    cases root <;> simp_all [nonNull]
  · intro v hv
    have : getByPointer (Json.obj [("a/b~x:y", v)]) "#/a~1b~0x%3Ay" = nonNull v := rfl
    rw [this]
    cases v <;> simp_all [nonNull]

/-- Witness for C9 on concrete inputs. -/
theorem getByPointer_root_rule_witness :
    getByPointer scenarioA "#" = some scenarioA
      ∧ getByPointer (Json.obj [("a/b~x:y", Json.str "v")]) "#/a~1b~0x%3Ay"
          = some (Json.str "v")
      ∧ getByPointer (Json.str "root") "definitions" = nonNull (Json.str "root") :=
  ⟨getByPointer_root_rule_and_unescape.2.1 scenarioA (by simp [scenarioA]),
   getByPointer_root_rule_and_unescape.2.2.2 (Json.str "v") (by simp),
   getByPointer_root_rule_and_unescape.1 (Json.str "root") "definitions" rfl⟩

/-- C1 counterexample: a cross-file `$ref` whose target document is absent
does not degrade to `"unknown"` — `loadSchemaContext`'s `readFileSync`
throws, the exception escapes `resolveRef` and `jsonTypeToTsType`, and an
`extractComponents` run over a root containing such a reference aborts
before reaching the remaining components. -/
theorem crossfile_absent_aborts :
    jsonTypeToTsType [] missingRefNode ⟨Json.obj [], "a/b.json"⟩ 0
        = Except.error "SchemaNotFound: missing.json"
      ∧ extractComponents [] ⟨contRootBad, "source/x/root.json"⟩
          = Except.error "SchemaNotFound: source/missing.json" :=
  ⟨rfl, rfl⟩

/-- C1 (amended): when `resolveRef` itself returns no target (`null`, from
a failed pointer lookup), the node degrades to `"unknown"` and compilation
continues — concretely, a root whose first component has an unresolvable
same-document pointer still yields every component, the degraded one typed
`"unknown"`. A cross-file reference to an absent document instead throws
`SchemaNotFound` (see the counterexample). -/
theorem unresolved_pointer_degrades :
    (∀ (files : Files) (schema : Json) (context : SchemaContext)
        (depth : Nat) (ref : String),
      depth ≤ 20 →
      refOf schema = some ref →
      resolveRef files ref context = Except.ok none →
      jsonTypeToTsType files schema context depth = Except.ok "unknown")
    ∧ extractComponents [] ⟨contRoot, "root.json"⟩
        = Except.ok [⟨"comp.a", "unknown", none, none⟩,
                     ⟨"comp.b", "string", none, none⟩] := by
  constructor
  · intro files schema context depth ref hdep href hres
    unfold jsonTypeToTsType
    have h22 : 22 - depth = (21 - depth) + 1 := by omega
    rw [h22]
    have hguard : ¬ depth > 20 := by omega
    simp only [jsonT, hguard, if_false, href, hres]
  · rfl

/-- Witness for C1 (amended) on a concrete unresolvable pointer. -/
theorem unresolved_pointer_degrades_witness :
    jsonTypeToTsType [] badPtrNode ⟨Json.obj [], "r.json"⟩ 0
      = Except.ok "unknown" :=
  unresolved_pointer_degrades.1 [] badPtrNode ⟨Json.obj [], "r.json"⟩ 0
    "#/definitions/missing" (by decide) rfl rfl

/-- C3 counterexample: a resolvable, acyclic `{$ref: X}` does not always
synthesize to the same type text as its dereferenced target synthesized
directly in the target's own context — an object target is rendered one
indentation level deeper through the reference, so the texts differ. -/
theorem ref_indentation_differs :
    jsonTypeToTsType [] refNodeT ⟨docT, "root.json"⟩ 0
        = Except.ok ("\x7b\n    a?: string;\n  \x7d")
      ∧ jsonTypeToTsType [] targetT ⟨docT, "root.json"⟩ 0
          = Except.ok ("\x7b\n  a?: string;\n\x7d")
      ∧ ("\x7b\n    a?: string;\n  \x7d" : String) ≠ "\x7b\n  a?: string;\n\x7d" :=
  ⟨rfl, rfl, by decide⟩

/-- C3 (amended): synthesizing `{$ref: X}` at depth `d` (below the guard)
equals synthesizing the dereferenced target in the target's own context at
depth `d + 1`; the type text is therefore identical exactly when the
target's synthesis does not depend on the depth (no object rendering and
no guard cut-off), and an object target renders one level deeper. -/
theorem ref_shifts_depth :
    ∀ (files : Files) (X : String) (context target : SchemaContext) (depth : Nat),
      depth ≤ 20 →
      X ≠ "" →
      resolveRef files X context = Except.ok (some target) →
      jsonTypeToTsType files (Json.obj [("$ref", Json.str X)]) context depth
        = jsonTypeToTsType files target.schema target (depth + 1) := by
  intro files X context target depth hdep hX hres
  have href : refOf (Json.obj [("$ref", Json.str X)]) = some X := by
    simp [refOf, strField, lookupField, hX]
  unfold jsonTypeToTsType
  have h22 : 22 - depth = (21 - depth) + 1 := by omega
  have h21 : 22 - (depth + 1) = 21 - depth := by omega
  rw [h22, h21]
  have hguard : ¬ depth > 20 := by omega
  simp only [jsonT, hguard, if_false, href, hres]

/-- Witness for C3 (amended) on the concrete document `docT`. -/
theorem ref_shifts_depth_witness :
    jsonTypeToTsType [] (Json.obj [("$ref", Json.str "#/definitions/T")])
        ⟨docT, "root.json"⟩ 0
      = jsonTypeToTsType [] targetT ⟨targetT, "root.json"⟩ 1 :=
  ref_shifts_depth [] "#/definitions/T" ⟨docT, "root.json"⟩
    ⟨targetT, "root.json"⟩ 0 (by decide) (by decide) rfl

/-- C5: `wrapUnion` de-duplicates by exact text equality (a branch text
already present never changes the union), collapses a single surviving
alternative to that alternative itself, returns `"unknown"` when no
alternative survives the empty-text filter, and the scenario-B schema
`{oneOf:[{const:"a"},{const:"a"},{const:"b"}]}` synthesizes to the
two-member union of the literals `'a'` and `'b'`. -/
theorem wrapUnion_dedup_collapse_unknown :
    (∀ (ts : List String) (t : String), t ∈ ts →
        wrapUnion (ts ++ [t]) = wrapUnion ts)
    ∧ (∀ t : String, t ≠ "" → wrapUnion [t] = t)
    ∧ (∀ ts : List String, (∀ t ∈ ts, t = "") → wrapUnion ts = "unknown")
    ∧ jsonTypeToTsType [] oneOfExample ⟨oneOfExample, "doc.json"⟩ 0
        = Except.ok (sq ++ "a" ++ sq ++ " | " ++ sq ++ "b" ++ sq) := by
  refine ⟨?_, ?_, ?_, rfl⟩
  · intro ts t hmem
    unfold wrapUnion
    rw [List.filter_append]
    by_cases ht : t = ""
    · subst ht
      simp
    · have hfil : List.filter (fun s => s ≠ "") [t] = [t] := by simp [ht]
      rw [hfil, dedupKeepFirst_append_mem]
      exact List.mem_filter.mpr ⟨hmem, decide_eq_true ht⟩
  · intro t ht
    unfold wrapUnion dedupKeepFirst
    simp only [List.filter, decide_eq_true ht]
    rfl
  · intro ts hall
    unfold wrapUnion
    have : List.filter (fun s => s ≠ "") ts = [] := by
      rw [List.filter_eq_nil_iff]
      intro a ha
      simp [hall a ha]
    rw [this]
    rfl

/-- Witness for C5: a duplicated branch text collapses on concrete input. -/
theorem wrapUnion_dedup_witness :
    wrapUnion ["number", "number"] = wrapUnion ["number"]
      ∧ wrapUnion ["number"] = "number"
      ∧ wrapUnion ["", ""] = "unknown" :=
  ⟨wrapUnion_dedup_collapse_unknown.1 ["number"] "number" (by simp),
   wrapUnion_dedup_collapse_unknown.2.1 "number" (by decide),
   wrapUnion_dedup_collapse_unknown.2.2.1 ["", ""] (by simp)⟩

theorem strStarts_hashSlash_false (r : String) (h : strStarts "#" r = false) :
    strStarts "#/" r = false := by
  unfold strStarts at h ⊢
  rcases hcs : r.data with _ | ⟨x, xs⟩
  · decide
  · rw [hcs] at h
    have h' : (decide ('#' = x) && leadsList [] xs) = false := h
    simp only [leadsList, Bool.and_true] at h'
    show (decide ('#' = x) && leadsList ['/'] xs) = false
    simp [h']

theorem find?_append_of_none {α} (p : α → Bool) (l1 l2 : List α)
    (h : l1.find? p = none) : (l1 ++ l2).find? p = l2.find? p := by
  induction l1 with
  | nil => simp
  | cons a l ih =>
    rw [List.cons_append]
    cases hpa : p a with
    | true =>
      rw [List.find?_cons_of_pos _ hpa] at h
      exact absurd h (by simp)
    | false =>
      rw [List.find?_cons_of_neg _ (by simp [hpa])] at h
      rw [List.find?_cons_of_neg _ (by simp [hpa])]
      exact ih h

/-- C6: a cross-file reference is resolved against the directory of the
referencing document's own path with `.`/`..` normalization, so the result
of `resolveRef` is determined by the normalized logical path (and the
fragment) alone — two documents whose different relative prefixes
normalize to the same path get the identical resolution; the Schema Store
answers a repeated load of the same logical path from its cache without
re-reading or re-parsing (the cache state is unchanged); and the
scenario-E references from `source/a/b/entity.json` and a sibling document
land on the same cached document `source/a/common.json`. -/
theorem resolveRef_path_normalization_and_cache :
    (∀ (files : Files) (r1 r2 : String) (c1 c2 : SchemaContext),
      strStarts "#" r1 = false → strStarts "#" r2 = false →
      posixNormalize (posixJoin (posixDirname c1.path) (refPathOf r1))
        = posixNormalize (posixJoin (posixDirname c2.path) (refPathOf r2)) →
      fragOf r1 = fragOf r2 →
      resolveRef files r1 c1 = resolveRef files r2 c2)
    ∧ (∀ (files cache : Files) (p : String) (cache' : Files) (ctx : SchemaContext),
      loadSchemaContextS files cache p = Except.ok (cache', ctx) →
      loadSchemaContextS files cache' p = Except.ok (cache', ctx))
    ∧ (resolveRef exFiles "../common.json#/definitions/Base"
          ⟨Json.obj [], "source/a/b/entity.json"⟩
        = Except.ok (some ⟨exBase, "source/a/common.json"⟩)
      ∧ resolveRef exFiles "b/../../common.json#/definitions/Base"
          ⟨Json.obj [], "source/a/b/other.json"⟩
        = Except.ok (some ⟨exBase, "source/a/common.json"⟩)) := by
  refine ⟨?_, ?_, rfl, rfl⟩
  · intro files r1 r2 c1 c2 h1 h2 hnorm hfrag
    have h1' := strStarts_hashSlash_false r1 h1
    have h2' := strStarts_hashSlash_false r2 h2
    unfold resolveRef
    simp only [h1, h2, h1', h2', Bool.false_eq_true, if_false]
    rw [hnorm, hfrag]
  · intro files cache p cache' ctx h
    unfold loadSchemaContextS at h ⊢
    cases hc : (cache.find? (fun kv => kv.1 == p)).map (fun kv => kv.2) with
    | some s =>
      rw [hc] at h
      injection h with h'
      rw [Prod.mk.injEq] at h'
      obtain ⟨rfl, rfl⟩ := h'
      rw [hc]
    | none =>
      rw [hc] at h
      cases hf : (files.find? (fun kv => kv.1 == p)).map (fun kv => kv.2) with
      | some s =>
        rw [hf] at h
        injection h with h'
        rw [Prod.mk.injEq] at h'
        obtain ⟨rfl, rfl⟩ := h'
        have hcn : cache.find? (fun kv => kv.1 == p) = none :=
          Option.map_eq_none'.mp hc
        have : (cache ++ [(p, s)]).find? (fun kv => kv.1 == p) = some (p, s) := by
          rw [find?_append_of_none _ _ _ hcn]
          exact List.find?_cons_of_pos _ (by simp)
        rw [this]
        rfl
      | none =>
        rw [hf] at h
        exact absurd h (by simp)

/-- Witness for C6: the two scenario-E references agree, and a second load
of the shared path is answered from the unchanged cache. -/
theorem resolveRef_path_normalization_witness :
    resolveRef exFiles "../common.json#/definitions/Base"
        ⟨Json.obj [], "source/a/b/entity.json"⟩
      = resolveRef exFiles "b/../../common.json#/definitions/Base"
        ⟨Json.obj [], "source/a/b/other.json"⟩
    ∧ loadSchemaContextS exFiles [("source/a/common.json", exCommon)]
        "source/a/common.json"
      = Except.ok ([("source/a/common.json", exCommon)],
          ⟨exCommon, "source/a/common.json"⟩) :=
  ⟨resolveRef_path_normalization_and_cache.1 exFiles
      "../common.json#/definitions/Base" "b/../../common.json#/definitions/Base"
      ⟨Json.obj [], "source/a/b/entity.json"⟩ ⟨Json.obj [], "source/a/b/other.json"⟩
      rfl rfl rfl rfl,
   resolveRef_path_normalization_and_cache.2.1 exFiles [] "source/a/common.json"
      [("source/a/common.json", exCommon)] ⟨exCommon, "source/a/common.json"⟩ rfl⟩

/-- C4: the property loop of `renderObject` is a homomorphism over the
property list (appending property lists appends their emitted lines, so
fields appear in the document's enumeration order), a single property
emits its optional JSDoc followed by exactly one field line, the field
line drops the optional marker `?` precisely when the key is a member of
the `required` set, and scenario A renders `hp` required and numeric. -/
theorem renderObject_order_and_required :
    (∀ (rec : Json → Nat → Except String String) (required : List String)
        (depth : Nat) (ps qs : List (String × Json)),
      renderPropsWith rec required depth (ps ++ qs)
        = match renderPropsWith rec required depth ps with
          | Except.error e => Except.error e
          | Except.ok a =>
            match renderPropsWith rec required depth qs with
            | Except.error e => Except.error e
            | Except.ok b => Except.ok (a ++ b))
    ∧ (∀ (rec : Json → Nat → Except String String) (required : List String)
        (depth : Nat) (key : String) (value : Json),
      renderPropsWith rec required depth [(key, value)]
        = match rec value (depth + 1) with
          | Except.error e => Except.error e
          | Except.ok ty =>
            Except.ok ((if generateJSDoc value depth = "" then []
                        else [generateJSDoc value depth])
              ++ [propLine depth required key ty]))
    ∧ (∀ (depth : Nat) (required : List String) (key ty : String),
        (required.contains key = true →
          propLine depth required key ty
            = indentOf depth ++ safeKey key ++ ": " ++ ty ++ ";")
        ∧ (required.contains key = false →
          propLine depth required key ty
            = indentOf depth ++ safeKey key ++ "?" ++ ": " ++ ty ++ ";"))
    ∧ jsonTypeToTsType [] scenarioA ⟨scenarioA, "doc.json"⟩ 0
        = Except.ok ("\x7b\n  hp: number;\n\x7d") := by
  refine ⟨?_, ?_, ?_, rfl⟩
  · intro rec required depth ps qs
    induction ps with
    | nil =>
      simp only [List.nil_append, renderPropsWith]
      cases hq : renderPropsWith rec required depth qs with
      | error e => rfl
      | ok b => simp
    | cons kv ps ih =>
      obtain ⟨key, value⟩ := kv
      rw [List.cons_append]
      simp only [renderPropsWith]
      cases hr : rec value (depth + 1) with
      | error e => rfl
      | ok ty =>
        rw [ih]
        cases hp : renderPropsWith rec required depth ps with
        | error e => rfl
        | ok a =>
          cases hq : renderPropsWith rec required depth qs with
          | error e => rfl
          | ok b => simp [List.append_assoc]
  · intro rec required depth key value
    simp only [renderPropsWith]
    cases hr : rec value (depth + 1) with
    | error e => rfl
    | ok ty => simp
  · intro depth required key ty
    constructor
    · intro h
      simp only [propLine, h, if_true]
      simp
    · intro h
      simp only [propLine, h]
      simp

/-- Witness for C4: concrete field lines with and without the marker. -/
theorem renderObject_order_witness :
    propLine 1 ["hp"] "hp" "number"
        = indentOf 1 ++ safeKey "hp" ++ ": " ++ "number" ++ ";"
      ∧ propLine 1 [] "hp" "number"
          = indentOf 1 ++ safeKey "hp" ++ "?" ++ ": " ++ "number" ++ ";" :=
  ⟨(renderObject_order_and_required.2.2.1 1 ["hp"] "hp" "number").1 rfl,
   (renderObject_order_and_required.2.2.1 1 [] "hp" "number").2 rfl⟩

theorem mapE_ok_forall {α β : Type} {f : α → Except String β} {P : β → Prop}
    (hf : ∀ x r, f x = Except.ok r → P r) :
    ∀ (l : List α) (rs : List β), mapE f l = Except.ok rs → ∀ r ∈ rs, P r := by
  intro l
  induction l with
  | nil =>
    intro rs h r hr
    injection h with h'
    subst h'
    exact absurd hr (List.not_mem_nil r)
  | cons x xs ih =>
    intro rs h r hr
    unfold mapE at h
    cases hx : f x with
    | error e => rw [hx] at h; exact absurd h (by simp)
    | ok y =>
      rw [hx] at h
      cases hxs : mapE f xs with
      | error e => rw [hxs] at h; exact absurd h (by simp)
      | ok ys =>
        rw [hxs] at h
        injection h with h'
        subst h'
        rcases List.mem_cons.mp hr with h1 | h2
        · exact h1 ▸ hf x y hx
        · exact ih ys hxs r h2

theorem renderObjectWith_ok_ne_empty
    (rec : Json → Nat → Except String String) (schema : Json) (depth : Nat)
    (r : String) (h : renderObjectWith rec schema depth = Except.ok r) :
    r ≠ "" := by
  unfold renderObjectWith at h
  repeat' split at h
  all_goals
    first
      | (injection h with h'
         subst h'
         exact joinSep_cons_ne_empty _ _ _ (by decide))
      | injection h

theorem jsonT_ok_ne_empty :
    ∀ (fuel : Nat) (files : Files) (schema : Json) (context : SchemaContext)
      (depth : Nat) (r : String),
      jsonT files fuel schema context depth = Except.ok r → r ≠ "" := by
  intro fuel
  induction fuel with
  | zero =>
    intro files schema context depth r h
    injection h with h'
    subst h'
    decide
  | succ f ih =>
    intro files schema context depth r h
    rw [jsonT] at h
    split at h
    · injection h with h'
      subst h'
      decide
    · split at h
      -- `$ref` branch
      · split at h
        · exact absurd h (by simp)
        · exact ih _ _ _ _ _ h
        · injection h with h'
          subst h'
          decide
      -- `oneOf`/`anyOf` branch
      · split at h
        · split at h
          · exact absurd h (by simp)
          · injection h with h'
            subst h'
            exact wrapUnion_ne_empty _
        -- `allOf` branch
        · split at h
          · split at h
            · exact absurd h (by simp)
            · next types heq =>
              injection h with h'
              subst h'
              split
              · next hlen =>
                cases types with
                | nil => simp at hlen
                | cons t ts =>
                  refine joinSep_cons_ne_empty _ _ _ ?_
                  exact mapE_ok_forall (fun x r hx => ih _ _ _ _ _ hx) _ _ heq t
                    (List.mem_cons.mpr (Or.inl rfl))
              · decide
          -- `enum` branch
          · split at h
            · injection h with h'
              subst h'
              exact wrapUnion_ne_empty _
            -- `const` branch
            · split at h
              · injection h with h'
                subst h'
                exact literalText_ne_empty _
              -- `type` list branch
              · split at h
                · split at h
                  · exact absurd h (by simp)
                  · injection h with h'
                    subst h'
                    exact wrapUnion_ne_empty _
                -- array / object / primitive tail
                · split at h
                  · split at h
                    · split at h
                      · exact absurd h (by simp)
                      · injection h with h'
                        subst h'
                        exact append_ne_empty_left _ _ (append_ne_empty_left _ _ (by decide))
                    · split at h
                      · exact absurd h (by simp)
                      · injection h with h'
                        subst h'
                        exact append_ne_empty_left _ _ (append_ne_empty_left _ _ (by decide))
                    · injection h with h'
                      subst h'
                      decide
                  · split at h
                    · exact renderObjectWith_ok_ne_empty _ _ _ _ h
                    · split at h <;>
                        (injection h with h'
                         subst h'
                         decide)

/-- C10: for every schema node, context and depth, a successful run of
`jsonTypeToTsType` returns a non-empty string (every branch yields at
least `"unknown"`), so the empty-text filter applied to a list of
synthesized branch results never removes a branch, and `wrapUnion`'s
inputs coming from synthesis are always non-empty. -/
theorem jsonTypeToTsType_nonempty :
    (∀ (files : Files) (schema : Json) (context : SchemaContext)
        (depth : Nat) (r : String),
      jsonTypeToTsType files schema context depth = Except.ok r → r ≠ "")
    ∧ (∀ (files : Files) (options : List Json) (context : SchemaContext)
        (depth : Nat) (rs : List String),
      mapE (fun option => jsonTypeToTsType files option context depth) options
          = Except.ok rs →
      rs.filter (fun t => t ≠ "") = rs) := by
  constructor
  · intro files schema context depth r h
    exact jsonT_ok_ne_empty (22 - depth) files schema context depth r h
  · intro files options context depth rs h
    rw [List.filter_eq_self]
    intro a ha
    exact decide_eq_true
      (mapE_ok_forall
        (fun x r hx => jsonT_ok_ne_empty (22 - depth) files x context depth r hx)
        options rs h a ha)

/-- Witness for C10: a default-branch synthesis result is non-empty, and
a synthesized branch list survives the empty-text filter unchanged. -/
theorem jsonTypeToTsType_nonempty_witness :
    ("unknown" : String) ≠ ""
      ∧ ["string"].filter (fun t => t ≠ "") = ["string"] :=
  ⟨jsonTypeToTsType_nonempty.1 [] (Json.obj []) ⟨Json.obj [], "w2.json"⟩ 0
      "unknown" rfl,
   jsonTypeToTsType_nonempty.2 [] [Json.obj [("type", Json.str "string")]]
      ⟨Json.obj [], "w2.json"⟩ 0 ["string"] rfl⟩

end SchemaGen
